import Mathlib

/-!
Shallow embedding of the PyRMVtransport client library (modules
`RMVtransport/rmvtransport.py`, `RMVtransport/rmvjourney.py`,
`RMVtransport/rmvtravel.py`, `RMVtransport/const.py`,
`RMVtransport/errors.py`) together with theorems settling the claims
about its natural-language specification.

Modelling conventions:
* Python `datetime` values are modelled at minute granularity as an
  integer count of minutes since an arbitrary epoch (the pipeline only
  ever builds datetimes from `%H:%M` fields, so seconds are always 0).
  `.time()` is minutes-of-day, `.date()` is the day index.
* Python `timedelta.seconds` (which normalises to `0 <= seconds < 86400`
  regardless of sign) is `Int.emod _ 86400` of the total seconds.
* Python dicts of constants are modelled as functions into `Option`;
  a `KeyError` is the `none` case.
* Fallible operations return `Option`/`Except`; a raised exception is
  an explicit error value.
-/

/-- The exception conditions raised by the library (errors.py plus the
built-in Python exceptions that escape uncaught): `TypeError` for a
missing required argument (the spec's InvalidArgument condition),
`KeyError` from a dict lookup, `RMVtransportApiConnectionError`,
`RMVtransportDataError` and the generic `RMVtransportError`. -/
inductive RaisedError where
  | typeErrorMissingArg
  | keyError
  | apiConnectionError
  | dataError
  | rmvError
deriving DecidableEq

/-- Python `datetime.time()` at minute granularity: minutes-of-day in
`[0, 1440)`.  `Int.emod` is non-negative for a positive modulus, matching
Python's floor-mod date normalisation. -/
def pyTimeOfDay (dt : Int) : Int := Int.emod dt 1440

/-- Python `datetime.date()` at minute granularity: the day index
(floor division, as in Python). -/
def pyDateOf (dt : Int) : Int := Int.ediv dt 1440

/-- Python `datetime.combine(date, time)` at minute granularity. -/
def datetime_combine (d t : Int) : Int := d * 1440 + t

/-- Python `timedelta.seconds` of a timedelta of `total` seconds: the
normalised representation has `0 <= seconds < 86400` with the sign
pushed into the day count, i.e. the floor-mod by 86400. -/
def timedelta_seconds (total : Int) : Int := Int.emod total 86400

/-- Python `round(a / b)` for a positive divisor `b`, computed exactly
on integers: round-half-to-even (banker's rounding) of the true
quotient, as `round()` behaves on the (exactly representable) float
quotients arising in `_real_departure`. -/
def pyRound (a b : Int) : Int :=
  let f := Int.fdiv a b
  let r := a - f * b
  if 2 * r < b then f
  else if b < 2 * r then f + 1
  else if f % 2 = 0 then f else f + 1

/-- Splitting a character list on a separator character, in the manner
of Python `str.split(sep)` with a one-character separator (structural
recursion, so that concrete inputs evaluate inside the kernel). -/
def splitOnChar (c : Char) : List Char → List (List Char)
  | [] => [[]]
  | x :: xs =>
    let r := splitOnChar c xs
    if x = c then [] :: r
    else
      match r with
      | [] => [[x]]
      | y :: ys => (x :: y) :: ys

/-- Parse a non-empty all-digit character list as a decimal number
(the digit parsing done by `strptime` on one field). -/
def digitsToNat? (cs : List Char) : Option Nat :=
  if cs = [] then none
  else
    cs.foldl
      (fun acc? c => acc?.bind fun acc =>
        if 48 ≤ c.toNat ∧ c.toNat ≤ 57 then some (10 * acc + (c.toNat - 48)) else none)
      (some 0)

/-- Python `datetime.strptime(s, "%H:%M").time()`: parse an `"HH:MM"`
field into minutes-of-day; parsing failure (ValueError) is `none`. -/
def parseHHMM (s : String) : Option Nat :=
  match splitOnChar ':' s.data with
  | [h, m] =>
    match digitsToNat? h, digitsToNat? m with
    | some hh, some mm => if hh < 24 ∧ mm < 60 then some (hh * 60 + mm) else none
    | _, _ => none
  | _ => none

/-! ### const.py -/

namespace Const

/-- The product-to-bitmask-weight table `PRODUCTS` of `const.py`
(note: this newer table also maps `"R"` to 4). -/
def PRODUCTS : String → Option Nat := fun p =>
  match p with
  | "ICE" => some 1
  | "IC" => some 2
  | "EC" => some 2
  | "R" => some 4
  | "RB" => some 4
  | "RE" => some 4
  | "S" => some 8
  | "U-Bahn" => some 16
  | "Tram" => some 32
  | "Bus" => some 64
  | "Bus2" => some 128
  | "Fähre" => some 256
  | "Taxi" => some 512
  | "Bahn" => some 1024
  | _ => none

/-- Retry budget `MAX_RETRIES` of `const.py`. -/
def MAX_RETRIES : Nat := 5

/-- The known-XML-issues table `KNOWN_XML_ISSUES` of `const.py`:
known bad substring, paired with its fixed replacement. -/
def KNOWN_XML_ISSUES : List (String × String) := [("<Arr getIn=false>", "<Arr >")]

/-- The icon URL template `IMG_URL` of `const.py`, applied to a product
weight (`pic_url % weight` with `%i` formatting). -/
def IMG_URL (weight : Nat) : String :=
  "https://www.rmv.de/auskunft/s/n/img/products/" ++ toString weight ++ "_pic.png"

end Const

/-! ### rmvjourney.py : the journey node and the RMVJourney extractor -/

/-- One `AttributeVariant` element of a journey's attribute list:
its `@type` tag and the `Text` payload. -/
structure AttributeVariant where
  typ : String
  text : String
deriving DecidableEq

/-- One `JourneyAttribute` element: its single `Attribute`'s `@type`
and that attribute's list of variants. -/
structure JourneyAttribute where
  typ : String
  variants : List AttributeVariant
deriving DecidableEq

/-- The parts of one parsed `Journey` XML node that the extractor
reads: the `MainStop.BasicStop.Dep.Time` text, the optional
`MainStop.BasicStop.Dep.Delay` field (already converted by `int`),
the optional platform text, and the `JourneyAttributeList`. -/
structure JourneyNode where
  depTime : String
  depDelay : Option Int
  platform : Option String
  attrs : List JourneyAttribute
deriving DecidableEq

namespace RMVJourney

/-- Method `_delay` of `RMVJourney` (rmvjourney.py): the `Delay` field,
defaulting to 0 when absent (the `AttributeError` branch). -/
def _delay (j : JourneyNode) : Int :=
  match j.depDelay with
  | some d => d
  | none => 0

/-- Method `_departure` of `RMVJourney`: parse the `"HH:MM"` departure
field; if it is strictly later than the time-of-day of `now` minus one
hour, combine it with today's date, otherwise with tomorrow's. -/
def _departure (j : JourneyNode) (now : Int) : Option Int :=
  (parseHHMM j.depTime).map fun (t : Nat) =>
    if pyTimeOfDay (now - 60) < (t : Int) then
      datetime_combine (pyDateOf now) (t : Int)
    else
      datetime_combine (pyDateOf now + 1) (t : Int)

/-- Method `_real_departure_time` of `RMVJourney`:
`self.departure + timedelta(minutes=self.delay)`. -/
def _real_departure_time (j : JourneyNode) (now : Int) : Option Int :=
  (_departure j now).map fun dep => dep + _delay j

/-- Method `_real_departure` of `RMVJourney`:
`round((self.real_departure_time - self._now).seconds / 60)`.
Note that Python's `timedelta.seconds` attribute (not
`total_seconds()`) is used, so the difference is reduced mod 86400
before the division. -/
def _real_departure (j : JourneyNode) (now : Int) : Option Int :=
  (_real_departure_time j now).map fun rdt =>
    pyRound (timedelta_seconds ((rdt - now) * 60)) 60

/-- Method `_extract` of `RMVJourney` (rmvjourney.py): locate the first
journey attribute whose `@type` equals the requested name
(`self._attr_types.index(attribute)`; a missing type raises ValueError,
modelled as `none`), then the first variant tagged `"NORMAL"`; if no
variant is tagged `"NORMAL"` the inner ValueError is caught and the
empty string is returned. -/
def _extract (j : JourneyNode) (attrName : String) : Option String :=
  match j.attrs.find? (fun a => a.typ = attrName) with
  | none => none
  | some a =>
    match a.variants.find? (fun v => v.typ = "NORMAL") with
    | none => some ""
    | some v => some v.text

/-- Method `_icon` of `RMVJourney` (rmvjourney.py): look the product
category up in `const.PRODUCTS`; a `KeyError` falls back to the weight
of `"Bahn"`, which is 1024. -/
def _icon (product : String) : String :=
  match Const.PRODUCTS product with
  | some weight => Const.IMG_URL weight
  | none => Const.IMG_URL 1024

end RMVJourney

/-! ### rmvtransport.py : product filter and orchestration -/

namespace Rmvtransport

/-- The product-to-bitmask-weight dict `PRODUCTS` at the top of
`rmvtransport.py` (this older copy has no `"R"` key). -/
def PRODUCTS : String → Option Nat := fun p =>
  match p with
  | "ICE" => some 1
  | "IC" => some 2
  | "EC" => some 2
  | "RB" => some 4
  | "RE" => some 4
  | "S" => some 8
  | "U-Bahn" => some 16
  | "Tram" => some 32
  | "Bus" => some 64
  | "Bus2" => some 128
  | "Fähre" => some 256
  | "Taxi" => some 512
  | "Bahn" => some 1024
  | _ => none

/-- The key list `ALL_PRODUCTS = list(PRODUCTS.keys())` of
`rmvtransport.py`, in dict insertion order. -/
def ALL_PRODUCTS : List String :=
  ["ICE", "IC", "EC", "RB", "RE", "S", "U-Bahn", "Tram", "Bus",
   "Bus2", "Fähre", "Taxi", "Bahn"]

end Rmvtransport

/-- Fueled helper for the binary digits of a natural number, least
significant first; structural on the fuel so that concrete inputs
evaluate inside the kernel.  With `fuel >= n` the fuel never runs out. -/
def binDigitsRevAux : Nat → Nat → List Char
  | _, 0 => []
  | 0, _ + 1 => []
  | fuel + 1, n + 1 =>
    (if (n + 1) % 2 = 1 then '1' else '0') :: binDigitsRevAux fuel ((n + 1) / 2)

/-- The binary digits of a natural number, least significant first
(empty for 0).  Helper for Python's `format(n, 'b')`. -/
def binDigitsRev (n : Nat) : List Char := binDigitsRevAux n n

/-- Python `format(n, 'b')`: the binary numeral of `n`, most significant
bit first, without padding; `format(0, 'b')` is `"0"`. -/
def pyFormatB (n : Nat) : String := if n = 0 then "0" else ⟨(binDigitsRev n).reverse⟩

/-- Python string slice `s[::-1]`: the reversed string. -/
def pyReverse (s : String) : String := ⟨s.data.reverse⟩

/-- Evaluation of `{PRODUCTS[p] for p in products}` in `_product_filter`
of `rmvtransport.py`: each name is looked up in turn and a missing key
raises `KeyError` (the `none` case).  On success the list of weights is
returned in input order (the set-construction itself is captured by the
`dedup` in `_product_filter`). -/
def productWeights : List String → Option (List Nat)
  | [] => some []
  | p :: ps =>
    match Rmvtransport.PRODUCTS p, productWeights ps with
    | some w, some ws => some (w :: ws)
    | _, _ => none

/-- Function `_product_filter` of `rmvtransport.py`: sum the set of
weights of the named products (`dedup` realises the set semantics of
the comprehension, so duplicated weights count once), format the sum
in binary, and reverse the character order (`format(_filter, 'b')[::-1]`). -/
def _product_filter (products : List String) : Option String :=
  (productWeights products).map fun ws => pyReverse (pyFormatB ws.dedup.sum)

/-- Reading a character list as a base-2 numeral, most significant bit
first (the spec-side decoding used to state the round-trip property of
the product filter). -/
def bitsToNat (cs : List Char) : Nat :=
  cs.foldl (fun acc c => 2 * acc + (if c = '1' then 1 else 0)) 0

/-- Python `products or ALL_PRODUCTS` in `get_departures`: `None` and
the empty list are falsy, so both fall back to `ALL_PRODUCTS`. -/
def pyOrAllProducts (products : Option (List String)) : List String :=
  match products with
  | some (p :: ps) => p :: ps
  | _ => Rmvtransport.ALL_PRODUCTS

/-- The fixed departure-board base URL of `rmvtransport.py`:
`base_uri + stboard_path + lang + type + with_suggestions`. -/
def base_url : String := "http://www.rmv.de/auskunft/bin/jp/stboard.exe/" ++ "d" ++ "n" ++ "?"

/-- Approximation of `urllib.parse.urlencode` on an ordered parameter
list (percent-escaping of the values is not modelled; no claim depends
on it). -/
def urlencode (params : List (String × String)) : String :=
  String.intercalate "&" (params.map fun kv => kv.1 ++ "=" ++ kv.2)

/-- Method `get_departures` of `RMVtransport` (rmvtransport.py), up to
the point where the fetched response is handed to the per-journey
pipeline (abstracted as `process`).  The stages in source order:
argument binding (`station_id` is a required positional parameter, so
calling without it raises `TypeError` before the body runs — the
spec's InvalidArgument condition), the product filter (an unknown
product name raises `KeyError`), URL construction, the network fetch
(`fetch` returns `none` on timeout or client error, raised as
`RMVtransportApiConnectionError`), then the response processing.
The second component of the result is the list of URLs actually
fetched. -/
def get_departures {ρ : Type} (station_id : Option String)
    (direction_id : Option String) (max_journeys : Int)
    (products : Option (List String))
    (fetch : String → Option String)
    (process : String → Except RaisedError ρ) :
    Except RaisedError ρ × List String :=
  match station_id with
  | none => (Except.error RaisedError.typeErrorMissingArg, [])
  | some sid =>
    match _product_filter (pyOrAllProducts products) with
    | none => (Except.error RaisedError.keyError, [])
    | some filt =>
      let params := [("selectDate", "today"), ("time", "now"),
                     ("input", sid), ("maxJourneys", toString max_journeys),
                     ("boardType", "dep"), ("productsFilter", filt),
                     ("disableEquivs", "discard_nearby"),
                     ("output", "xml"), ("start", "yes")]
                    ++ (match direction_id with
                        | some d => [("dirInput", d)]
                        | none => [])
      let url := base_url ++ urlencode params
      match fetch url with
      | none => (Except.error RaisedError.apiConnectionError, [url])
      | some xml => (process xml, [url])

/-! ### XML repair and parse loop (spec §4.3) -/

/-- Whether `pat` occurs as a contiguous sublist of a character list
(Python's `in` on strings). -/
def containsSublist (pat : List Char) : List Char → Bool
  | [] => pat.isEmpty
  | x :: xs => pat.isPrefixOf (x :: xs) || containsSublist pat xs

/-- Whether `pat` occurs as a substring of `s`. -/
def strContains (s pat : String) : Bool := containsSublist pat.data s.data

/-- Replacement of every non-overlapping occurrence of `pat` by `rep`,
left to right (Python `bytes.replace`).  The extra `skip` counter makes
the recursion structural: after emitting a replacement the remaining
`pat.length - 1` matched characters are dropped. -/
def replaceSubAux (pat rep : List Char) : List Char → Nat → List Char
  | [], _ => []
  | x :: xs, 0 =>
    if pat.isPrefixOf (x :: xs) && !pat.isEmpty then
      rep ++ replaceSubAux pat rep xs (pat.length - 1)
    else
      x :: replaceSubAux pat rep xs 0
  | _ :: xs, skip + 1 => replaceSubAux pat rep xs skip

/-- Python `buffer.replace(pattern, replacement)`. -/
def pyReplace (s pat rep : String) : String := ⟨replaceSubAux pat.data rep.data s.data 0⟩

/-- Python `buffer.split(b"\n")`: the buffer's lines. -/
def pySplitlines (buf : String) : List String :=
  (splitOnChar '\n' buf.data).map (fun cs => ⟨cs⟩)

/-- The 1-based error line extracted from the buffer: split on newline
and index (the parser's reported line number is always in range). -/
def reported_line (buf : String) (lineno : Nat) : String :=
  (pySplitlines buf).getD (lineno - 1) ""

/-- Look an offending line up in `KNOWN_XML_ISSUES`: the first table
entry whose known bad substring occurs in the line, if any. -/
def findIssue (line : String) : Option (String × String) :=
  Const.KNOWN_XML_ISSUES.find? (fun kv => strContains line kv.1)

/-- Modelled from the spec: the bounded XML repair and parse loop of
§4.3 is not present in the `rmvtransport.py` under `src/` (only its
constants `KNOWN_XML_ISSUES` and `MAX_RETRIES` are, in `const.py`), so
it is modelled from the spec's words here.  `parse` is the structural
XML parser, returning the parsed document or the 1-based line number
of a syntax error.  Each recursion step is one parse attempt; on a
syntax error the reported line is extracted and looked up in the
known-issues table; an unknown line fails permanently with
`RMVtransportDataError`; a known one has its bad substring replaced by
the fixed replacement throughout the buffer before retrying; an
exhausted budget is also a `RMVtransportDataError`.  The second
component counts the parse attempts made. -/
def parse_with_retries {δ : Type} (parse : String → Except Nat δ) :
    Nat → String → Except RaisedError δ × Nat
  | 0, _ => (Except.error RaisedError.dataError, 0)
  | fuel + 1, buf =>
    match parse buf with
    | Except.ok doc => (Except.ok doc, 1)
    | Except.error lineno =>
      match findIssue (reported_line buf lineno) with
      | none => (Except.error RaisedError.dataError, 1)
      | some kv =>
        let rest := parse_with_retries parse fuel (pyReplace buf kv.1 kv.2)
        (rest.1, rest.2 + 1)

/-- Modelled from the spec: the entry point of the repair loop, with
the fixed retry budget `MAX_RETRIES`. -/
def parse_response {δ : Type} (parse : String → Except Nat δ) (buf : String) :
    Except RaisedError δ × Nat :=
  parse_with_retries parse Const.MAX_RETRIES buf

/-! ### rmvtravel.py / data() : the result assembler -/

/-- The computed properties of one extracted `RMVJourney`, as read by
the result assembler (`data()` in rmvtransport.py, `as_dict` /
`build_journey_list` in rmvtravel.py). -/
structure JourneyRecord where
  product : String
  number : String
  trainId : String
  direction : String
  departure_time : Int
  real_departure : Int
  delay : Int
  stops : List String
  info : Option String
  info_long : Option String
  icon : String
deriving DecidableEq

/-- Method `as_dict` of `RMVJourney`: the journey dictionary placed in
the result (key `minutes` is the computed `real_departure`). -/
structure JourneyDict where
  product : String
  number : String
  trainId : String
  direction : String
  departure_time : Int
  minutes : Int
  delay : Int
  stops : List String
  info : Option String
  info_long : Option String
  icon : String
deriving DecidableEq

/-- The field-by-field repackaging performed by `as_dict`. -/
def JourneyRecord.as_dict (j : JourneyRecord) : JourneyDict :=
  { product := j.product, number := j.number, trainId := j.trainId,
    direction := j.direction, departure_time := j.departure_time,
    minutes := j.real_departure, delay := j.delay, stops := j.stops,
    info := j.info, info_long := j.info_long, icon := j.icon }

/-- The sort key comparator of `sorted(journeys, key=lambda k:
k.real_departure)`. -/
def journeyLE (a b : JourneyRecord) : Bool := a.real_departure ≤ b.real_departure

/-- Function `build_journey_list` of `rmvtravel.py` (the same
expression appears in `RMVtransport.data`):
`[j.as_dict() for j in sorted(journeys, key=...)[:max_journeys]]`.
Python's `sorted` is a stable ascending sort, modelled by the (stable)
`List.mergeSort`. -/
def build_journey_list (journeys : List JourneyRecord) (max_journeys : Nat) :
    List JourneyDict :=
  ((journeys.mergeSort journeyLE).take max_journeys).map JourneyRecord.as_dict

/-- The travel dictionary built by `RMVtravel` (rmvtravel.py) and by
`RMVtransport.data` (rmvtransport.py): station metadata plus the
sorted, truncated journey list. -/
structure RMVtravelData where
  station : String
  stationId : String
  products_filter : String
  journeys : List JourneyDict
deriving DecidableEq

/-- The construction of the result dictionary (`RMVtravel.__init__` /
`RMVtransport.data`). -/
def RMVtravel (station stationId products_filter : String)
    (journeys : List JourneyRecord) (max_journeys : Nat) : RMVtravelData :=
  { station := station, stationId := stationId,
    products_filter := products_filter,
    journeys := build_journey_list journeys max_journeys }

/-- The departure rule exactly as the spec's sentence states it
(claim C2): a parsed time-of-day strictly earlier than the time-of-day
of `now - 1h` goes to the next calendar day, anything else to today's
date.  Declared only to be compared with the source's `_departure`. -/
def spec_departure_rule (t : Nat) (now : Int) : Int :=
  if (t : Int) < pyTimeOfDay (now - 60) then datetime_combine (pyDateOf now + 1) t
  else datetime_combine (pyDateOf now) t

/-- The minutes-until-departure formula exactly as the spec's sentence
states it (claim C5): the signed difference in seconds, divided by 60
and rounded.  Declared only to be compared with the source's
`_real_departure`. -/
def spec_minutes_rule (rdt now : Int) : Int :=
  pyRound ((rdt - now) * 60) 60

/-! ## Helper lemmas -/

/-- Every weight in the `rmvtransport.py` product table is positive. -/
theorem products_weight_pos (p : String) (w : Nat)
    (h : Rmvtransport.PRODUCTS p = some w) : 0 < w := by
  unfold Rmvtransport.PRODUCTS at h
  split at h <;> simp_all <;> omega

/-- When every product name is a key of the table, the weight list is
the `filterMap` of the table over the names. -/
theorem productWeights_all_some :
    ∀ ps : List String, (∀ p ∈ ps, (Rmvtransport.PRODUCTS p).isSome) →
      productWeights ps = some (ps.filterMap Rmvtransport.PRODUCTS)
  | [], _ => rfl
  | p :: ps, h => by
    obtain ⟨w, hw⟩ := Option.isSome_iff_exists.mp (h p (List.mem_cons_self p ps))
    have ih := productWeights_all_some ps (fun q hq => h q (List.mem_cons_of_mem p hq))
    simp [productWeights, hw, ih, List.filterMap_cons]

/-- A single unknown product name makes the whole weight evaluation
raise (`none`). -/
theorem productWeights_none :
    ∀ (ps : List String) (p : String), p ∈ ps →
      Rmvtransport.PRODUCTS p = none → productWeights ps = none := by
  intro ps
  induction ps with
  | nil => intro p h; exact absurd h (List.not_mem_nil p)
  | cons q qs ih =>
    intro p h hnone
    rcases List.mem_cons.mp h with rfl | hmem
    · simp [productWeights, hnone]
    · cases hq : Rmvtransport.PRODUCTS q <;>
        simp [productWeights, hq, ih p hmem hnone]

/-- Reading back the little-endian binary digits most-significant-first
recovers the number. -/
theorem binAux_foldr :
    ∀ (fuel n : Nat), n ≤ fuel →
      (binDigitsRevAux fuel n).foldr
        (fun c acc => 2 * acc + (if c = '1' then 1 else 0)) 0 = n
  | fuel, 0, _ => by cases fuel <;> simp [binDigitsRevAux]
  | 0, n + 1, h => absurd h (by omega)
  | fuel + 1, n + 1, h => by
    have hdiv : (n + 1) / 2 ≤ fuel := by omega
    have ih := binAux_foldr fuel ((n + 1) / 2) hdiv
    simp only [binDigitsRevAux, List.foldr_cons, ih]
    rcases Nat.mod_two_eq_zero_or_one (n + 1) with hm | hm <;> simp [hm] <;> omega

/-- The most significant digit of a positive number is 1: the binary
rendering is not zero-padded. -/
theorem binAux_getLast :
    ∀ (fuel n : Nat), 0 < n → n ≤ fuel →
      (binDigitsRevAux fuel n).getLast? = some '1'
  | 0, _, _, h => by omega
  | fuel + 1, n + 1, _, h => by
    have hzero : ∀ f, binDigitsRevAux f 0 = [] := fun f => by cases f <;> rfl
    by_cases h2 : (n + 1) / 2 = 0
    · have hn : n = 0 := by omega
      subst hn
      simp [binDigitsRevAux, h2, hzero]
    · have hdiv : (n + 1) / 2 ≤ fuel := by omega
      have ih := binAux_getLast fuel ((n + 1) / 2) (Nat.pos_of_ne_zero h2) hdiv
      have hstep : binDigitsRevAux (fuel + 1) (n + 1) =
          (if (n + 1) % 2 = 1 then '1' else '0') :: binDigitsRevAux fuel ((n + 1) / 2) := rfl
      cases hrest : binDigitsRevAux fuel ((n + 1) / 2) with
      | nil => rw [hrest] at ih; simp at ih
      | cons y ys =>
        rw [hstep, hrest, List.getLast?_cons_cons]
        rw [hrest] at ih
        exact ih

/-- Lists with the same underlying finite set have the same
deduplicated sum. -/
theorem dedup_sum_congr (l₁ l₂ : List Nat) (h : l₁.toFinset = l₂.toFinset) :
    l₁.dedup.sum = l₂.dedup.sum :=
  (List.toFinset_eq_iff_perm_dedup.mp h).sum_eq

/-- The `filterMap` of two lists with the same underlying finite set
again have the same underlying finite set. -/
theorem filterMap_toFinset_congr (f : String → Option Nat)
    (l₁ l₂ : List String) (h : l₁.toFinset = l₂.toFinset) :
    (l₁.filterMap f).toFinset = (l₂.filterMap f).toFinset := by
  have hmem : ∀ a, a ∈ l₁ ↔ a ∈ l₂ := fun a => by
    rw [← List.mem_toFinset, h, List.mem_toFinset]
  ext x
  simp only [List.mem_toFinset, List.mem_filterMap]
  constructor
  · rintro ⟨a, ha, hfa⟩
    exact ⟨a, (hmem a).mp ha, hfa⟩
  · rintro ⟨a, ha, hfa⟩
    exact ⟨a, (hmem a).mpr ha, hfa⟩

/-- Rounding an exact multiple of the divisor is exact. -/
theorem pyRound_mul_cancel (m : Int) : pyRound (m * 60) 60 = m := by
  unfold pyRound
  rw [Int.mul_fdiv_cancel m (by norm_num)]
  simp

/-- Python `timedelta.seconds` of a whole number of minutes, in
seconds: the minute count is reduced mod 1440. -/
theorem timedelta_seconds_mul60 (m : Int) :
    timedelta_seconds (m * 60) = Int.emod m 1440 * 60 := by
  unfold timedelta_seconds
  rw [mul_comm m 60]
  show (60 * m) % (60 * 1440) = m % 1440 * 60
  rw [Int.mul_emod_mul_of_pos m 1440 (by norm_num)]
  exact mul_comm _ _

/-- The comparator `journeyLE` is transitive. -/
theorem journeyLE_trans : ∀ a b c : JourneyRecord,
    journeyLE a b → journeyLE b c → journeyLE a c := by
  intro a b c hab hbc
  simp only [journeyLE, decide_eq_true_eq] at *
  omega

/-- The comparator `journeyLE` is total. -/
theorem journeyLE_total : ∀ a b : JourneyRecord, journeyLE a b || journeyLE b a := by
  intro a b
  simp only [journeyLE, Bool.or_eq_true, decide_eq_true_eq]
  omega

/-- Stability of the assembler's sort, per key: the journeys with any
given minutes-until-departure value appear in the sorted list exactly
as they appear in the input. -/
theorem mergeSort_filter_key (journeys : List JourneyRecord) (k : Int) :
    (journeys.mergeSort journeyLE).filter (fun j => j.real_departure == k)
      = journeys.filter (fun j => j.real_departure == k) := by
  have hA : (journeys.filter (fun j => j.real_departure == k)).Pairwise
      (fun a b => journeyLE a b) := by
    apply List.pairwise_of_forall_mem_list
    intro a ha b hb
    have ha' := List.of_mem_filter ha
    have hb' := List.of_mem_filter hb
    simp only [beq_iff_eq] at ha' hb'
    simp [journeyLE, ha', hb']
  have hsub : List.Sublist (journeys.filter (fun j => j.real_departure == k))
      (journeys.mergeSort journeyLE) :=
    List.sublist_mergeSort journeyLE_trans journeyLE_total hA
      (List.filter_sublist journeys)
  have hAeq : (journeys.filter (fun j => j.real_departure == k)).filter
      (fun j => j.real_departure == k)
      = journeys.filter (fun j => j.real_departure == k) :=
    List.filter_eq_self.mpr (fun a ha => (List.mem_filter.mp ha).2)
  have hsub2 : List.Sublist (journeys.filter (fun j => j.real_departure == k))
      ((journeys.mergeSort journeyLE).filter (fun j => j.real_departure == k)) := by
    have h := hsub.filter (fun j => j.real_departure == k)
    rwa [hAeq] at h
  have hperm : List.Perm
      ((journeys.mergeSort journeyLE).filter (fun j => j.real_departure == k))
      (journeys.filter (fun j => j.real_departure == k)) :=
    (List.mergeSort_perm journeys journeyLE).filter _
  exact (hsub2.eq_of_length hperm.length_eq.symm).symm

/-- Every error produced by the repair loop is the data error. -/
theorem pwr_error_eq {δ : Type} (parse : String → Except Nat δ) :
    ∀ (fuel : Nat) (buf : String) (e : RaisedError),
      (parse_with_retries parse fuel buf).1 = Except.error e →
      e = RaisedError.dataError
  | 0, buf, e => by
    intro h
    simp [parse_with_retries] at h
    exact h.symm
  | fuel + 1, buf, e => by
    intro h
    cases hp : parse buf with
    | ok d => simp [parse_with_retries, hp] at h
    | error lineno =>
      cases hf : findIssue (reported_line buf lineno) with
      | none =>
        simp [parse_with_retries, hp, hf] at h
        exact h.symm
      | some kv =>
        simp [parse_with_retries, hp, hf] at h
        exact pwr_error_eq parse fuel (pyReplace buf kv.1 kv.2) e h

/-- The repair loop makes at most `fuel` parse attempts. -/
theorem pwr_attempts_le {δ : Type} (parse : String → Except Nat δ) :
    ∀ (fuel : Nat) (buf : String),
      (parse_with_retries parse fuel buf).2 ≤ fuel
  | 0, buf => by simp [parse_with_retries]
  | fuel + 1, buf => by
    cases hp : parse buf with
    | ok d => simp [parse_with_retries, hp]
    | error lineno =>
      cases hf : findIssue (reported_line buf lineno) with
      | none => simp [parse_with_retries, hp, hf]
      | some kv =>
        have ih := pwr_attempts_le parse fuel (pyReplace buf kv.1 kv.2)
        simp [parse_with_retries, hp, hf]
        omega

/-- A successful result of the repair loop comes from a clean parse of
some (possibly repaired) buffer. -/
theorem pwr_ok_parsed {δ : Type} (parse : String → Except Nat δ) :
    ∀ (fuel : Nat) (buf : String) (d : δ),
      (parse_with_retries parse fuel buf).1 = Except.ok d →
      ∃ b, parse b = Except.ok d
  | 0, buf, d => by
    intro h
    simp [parse_with_retries] at h
  | fuel + 1, buf, d => by
    intro h
    cases hp : parse buf with
    | ok d0 =>
      simp [parse_with_retries, hp] at h
      exact ⟨buf, by rw [hp, h]⟩
    | error lineno =>
      cases hf : findIssue (reported_line buf lineno) with
      | none => simp [parse_with_retries, hp, hf] at h
      | some kv =>
        simp [parse_with_retries, hp, hf] at h
        exact pwr_ok_parsed parse fuel (pyReplace buf kv.1 kv.2) d h

/-- The only entry `findIssue` can return is the single known issue. -/
theorem findIssue_eq_known (line : String) (kv : String × String)
    (h : findIssue line = some kv) : kv = ("<Arr getIn=false>", "<Arr >") := by
  unfold findIssue Const.KNOWN_XML_ISSUES at h
  cases hc : strContains line "<Arr getIn=false>" with
  | true => simp [List.find?, hc] at h; exact h.symm
  | false => simp [List.find?, hc] at h

/-! ## Claim theorems -/

/-- C2 (amended): for every journey node with a parseable `"HH:MM"`
departure field and every reference instant `now`, the scheduled
departure combines the parsed time-of-day with the NEXT calendar date
when that time-of-day is earlier than OR EQUAL TO the time-of-day of
`now` minus one hour, and with today's date when it is strictly later.
(The claim's strict "earlier than" fails exactly at equality; see the
counterexample.) -/
theorem departure_day_rollover (j : JourneyNode) (now : Int) (t : Nat)
    (h : parseHHMM j.depTime = some t) :
    ((t : Int) ≤ pyTimeOfDay (now - 60) →
      RMVJourney._departure j now = some (datetime_combine (pyDateOf now + 1) t))
    ∧ (pyTimeOfDay (now - 60) < (t : Int) →
      RMVJourney._departure j now = some (datetime_combine (pyDateOf now) t)) := by
  have key : RMVJourney._departure j now
      = some (if pyTimeOfDay (now - 60) < (t : Int) then
          datetime_combine (pyDateOf now) t
        else datetime_combine (pyDateOf now + 1) t) := by
    unfold RMVJourney._departure
    rw [h]
    rfl
  constructor
  · intro h'
    rw [key, if_neg (not_lt.mpr h')]
  · intro h'
    rw [key, if_pos h']

/-- C2 witness: with `now` at 23:50 (minute 1430 of day 0) and journey
time `"00:10"`, the scheduled departure falls on the next calendar
date, as the spec's example demands. -/
theorem departure_day_rollover_witness :
    parseHHMM "00:10" = some 10
    ∧ RMVJourney._departure ⟨"00:10", none, none, []⟩ 1430
        = some (datetime_combine (pyDateOf 1430 + 1) 10) :=
  ⟨by decide,
   (departure_day_rollover ⟨"00:10", none, none, []⟩ 1430 10 (by decide)).1 (by decide)⟩

/-- C2 counterexample: at the boundary the claim's strict "earlier
than" disagrees with the code.  With `now` at 13:00 (minute 780) the
cutoff time-of-day is 12:00; a journey time of exactly `"12:00"` is not
strictly earlier than the cutoff, so the claim puts it on today's date
(minute 720), but `_departure` puts it on tomorrow's (minute 2160). -/
theorem departure_boundary_counterexample :
    parseHHMM "12:00" = some 720
    ∧ RMVJourney._departure ⟨"12:00", none, none, []⟩ 780 = some 2160
    ∧ spec_departure_rule 720 780 = 720
    ∧ RMVJourney._departure ⟨"12:00", none, none, []⟩ 780
        ≠ some (spec_departure_rule 720 780) := by
  refine ⟨by decide, by decide, by decide, by decide⟩

/-- C5 (amended): the computed minutes-until-departure is the signed
minute difference `actualDeparture - now` reduced modulo 1440 into
`[0, 1440)` (the semantics of Python's `timedelta.seconds`); a
departure earlier than `now` therefore yields a large wrapped positive
value, never a negative one. -/
theorem real_departure_wraps (j : JourneyNode) (now rdt : Int)
    (h : RMVJourney._real_departure_time j now = some rdt) :
    RMVJourney._real_departure j now = some (Int.emod (rdt - now) 1440)
    ∧ 0 ≤ Int.emod (rdt - now) 1440
    ∧ Int.emod (rdt - now) 1440 < 1440 := by
  refine ⟨?_, Int.emod_nonneg _ (by norm_num), Int.emod_lt_of_pos _ (by norm_num)⟩
  unfold RMVJourney._real_departure
  rw [h]
  simp only [Option.map_some']
  rw [timedelta_seconds_mul60, pyRound_mul_cancel]

/-- C5 witness: a journey at 09:00 with 5 minutes delay, seen from
08:00 (minute 480), departs in 65 minutes. -/
theorem real_departure_wraps_witness :
    RMVJourney._real_departure_time ⟨"09:00", some 5, none, []⟩ 480 = some 545
    ∧ RMVJourney._real_departure ⟨"09:00", some 5, none, []⟩ 480
        = some (Int.emod (545 - 480) 1440) :=
  ⟨by decide,
   (real_departure_wraps ⟨"09:00", some 5, none, []⟩ 480 545 (by decide)).1⟩

/-- C5 counterexample: a journey whose actual departure (12:30,
minute 750) is 30 minutes before `now` (13:00, minute 780) — reachable,
since `_departure` keeps times up to one hour in the past on today's
date — gets minutes-until-departure 1410, not the claim's
`round((750 - 780) * 60 / 60) = -30`. -/
theorem real_departure_negative_counterexample :
    RMVJourney._real_departure_time ⟨"12:30", none, none, []⟩ 780 = some 750
    ∧ spec_minutes_rule 750 780 = -30
    ∧ RMVJourney._real_departure ⟨"12:30", none, none, []⟩ 780 = some 1410
    ∧ RMVJourney._real_departure ⟨"12:30", none, none, []⟩ 780
        ≠ some (spec_minutes_rule 750 780) := by
  refine ⟨by decide, by decide, by decide, by decide⟩

/-- C6: when the requested attribute type is present (the first
matching entry is `a`) but its variant list has no variant tagged
`"NORMAL"`, `_extract` resolves to the empty string instead of raising,
so the extraction completes. -/
theorem extract_no_normal_variant (j : JourneyNode) (attrName : String)
    (a : JourneyAttribute)
    (hfind : j.attrs.find? (fun x => x.typ = attrName) = some a)
    (hnone : a.variants.find? (fun v => v.typ = "NORMAL") = none) :
    RMVJourney._extract j attrName = some ""
    ∧ (RMVJourney._extract j attrName).isSome := by
  unfold RMVJourney._extract
  rw [hfind]
  simp [hnone]

/-- C6 witness: a NAME attribute whose only variant is tagged
`"OTHER"` resolves to the empty string. -/
theorem extract_no_normal_variant_witness :
    RMVJourney._extract ⟨"00:00", none, none, [⟨"NAME", [⟨"OTHER", "x"⟩]⟩]⟩ "NAME"
      = some "" :=
  (extract_no_normal_variant ⟨"00:00", none, none, [⟨"NAME", [⟨"OTHER", "x"⟩]⟩]⟩
    "NAME" ⟨"NAME", [⟨"OTHER", "x"⟩]⟩ (by decide) (by decide)).1

/-- C7: a product category that is not a key of `const.PRODUCTS`
resolves to the icon URL of the fallback weight 1024 (the `"Bahn"`
entry), which is a non-empty URL; a known category resolves to the URL
derived from its own weight.  `_icon` is total, so no input raises. -/
theorem icon_fallback :
    (∀ product : String, Const.PRODUCTS product = none →
      RMVJourney._icon product = Const.IMG_URL 1024 ∧ RMVJourney._icon product ≠ "")
    ∧ (∀ (product : String) (w : Nat), Const.PRODUCTS product = some w →
      RMVJourney._icon product = Const.IMG_URL w) := by
  constructor
  · intro product h
    unfold RMVJourney._icon
    rw [h]
    exact ⟨rfl, by decide⟩
  · intro product w h
    unfold RMVJourney._icon
    rw [h]

/-- C7 witness: the unknown category `"Boot"` falls back to the weight
1024 icon; the known category `"S"` maps to the weight 8 icon. -/
theorem icon_fallback_witness :
    (RMVJourney._icon "Boot" = Const.IMG_URL 1024 ∧ RMVJourney._icon "Boot" ≠ "")
    ∧ RMVJourney._icon "S" = Const.IMG_URL 8 :=
  ⟨icon_fallback.1 "Boot" (by decide), icon_fallback.2 "S" 8 (by decide)⟩

/-- C8: a journey node without a `Delay` field has extracted delay
exactly 0, and its actual departure time equals its scheduled departure
time, for every reference instant; the absence never aborts the
extraction (both sides are defined whenever the departure is). -/
theorem delay_absent_default (j : JourneyNode) (h : j.depDelay = none) :
    RMVJourney._delay j = 0
    ∧ ∀ now : Int, RMVJourney._real_departure_time j now = RMVJourney._departure j now := by
  have hd : RMVJourney._delay j = 0 := by unfold RMVJourney._delay; rw [h]
  refine ⟨hd, fun now => ?_⟩
  unfold RMVJourney._real_departure_time
  rw [hd]
  cases RMVJourney._departure j now <;> simp

/-- C8 witness: a concrete delay-less node. -/
theorem delay_absent_default_witness :
    RMVJourney._delay ⟨"12:30", none, none, []⟩ = 0
    ∧ RMVJourney._real_departure_time ⟨"12:30", none, none, []⟩ 780
        = RMVJourney._departure ⟨"12:30", none, none, []⟩ 780 :=
  ⟨(delay_absent_default ⟨"12:30", none, none, []⟩ rfl).1,
   (delay_absent_default ⟨"12:30", none, none, []⟩ rfl).2 780⟩

/-- C9: calling the departure-board operation without a `station_id`
fails with the InvalidArgument condition (Python's `TypeError` for a
missing required positional argument) and the request log is empty: no
network fetch is attempted, whatever the other arguments, the network
and the downstream processing are. -/
theorem get_departures_requires_station_id {ρ : Type}
    (direction_id : Option String) (max_journeys : Int)
    (products : Option (List String)) (fetch : String → Option String)
    (process : String → Except RaisedError ρ) :
    get_departures none direction_id max_journeys products fetch process
      = (Except.error RaisedError.typeErrorMissingArg, []) := rfl

/-- C10: a products argument that contains a name outside the
`rmvtransport.py` product table makes `get_departures` raise the
uncaught `KeyError` from `_product_filter`, with an empty request log:
the failure precedes any network fetch. -/
theorem get_departures_unknown_product {ρ : Type} (sid : String)
    (direction_id : Option String) (max_journeys : Int)
    (ps : List String) (p : String)
    (hmem : p ∈ ps) (hunknown : Rmvtransport.PRODUCTS p = none)
    (fetch : String → Option String)
    (process : String → Except RaisedError ρ) :
    get_departures (some sid) direction_id max_journeys (some ps) fetch process
      = (Except.error RaisedError.keyError, []) := by
  obtain ⟨q, qs, rfl⟩ : ∃ q qs, ps = q :: qs := by
    cases ps with
    | nil => exact absurd hmem (List.not_mem_nil p)
    | cons q qs => exact ⟨q, qs, rfl⟩
  have hfil : _product_filter (q :: qs) = none := by
    unfold _product_filter
    rw [productWeights_none (q :: qs) p hmem hunknown]
    rfl
  unfold get_departures pyOrAllProducts
  simp [hfil]

/-- C10 witness: requesting product `"R"` — a key of the newer
`const.py` table but not of the `rmvtransport.py` table the filter
uses — raises `KeyError` with no request issued. -/
theorem get_departures_unknown_product_witness :
    get_departures (some "3006904") none 20 (some ["R"]) (fun _ => none)
      (fun _ => (Except.error RaisedError.rmvError : Except RaisedError Unit))
      = (Except.error RaisedError.keyError, []) :=
  get_departures_unknown_product "3006904" none 20 ["R"] "R"
    (by decide) (by decide) (fun _ => none)
    (fun _ => (Except.error RaisedError.rmvError : Except RaisedError Unit))

/-- C3: the assembled result carries the station name, station id and
encoded filter unchanged, and its journey list is the input sorted
ascending by minutes-until-departure — stably: for every key value the
journeys with that key keep their input order — truncated to the first
`max_journeys` elements (then repackaged by `as_dict`). -/
theorem data_journeys_sorted_stable_truncated (station stationId filt : String)
    (journeys : List JourneyRecord) (max_journeys : Nat) :
    (RMVtravel station stationId filt journeys max_journeys).station = station
    ∧ (RMVtravel station stationId filt journeys max_journeys).stationId = stationId
    ∧ (RMVtravel station stationId filt journeys max_journeys).products_filter = filt
    ∧ ∃ l : List JourneyRecord,
        List.Perm journeys l
        ∧ List.Pairwise (fun a b => a.real_departure ≤ b.real_departure) l
        ∧ (∀ k : Int, l.filter (fun j => j.real_departure == k)
            = journeys.filter (fun j => j.real_departure == k))
        ∧ (RMVtravel station stationId filt journeys max_journeys).journeys
            = (l.take max_journeys).map JourneyRecord.as_dict := by
  refine ⟨rfl, rfl, rfl, journeys.mergeSort journeyLE,
    (List.mergeSort_perm journeys journeyLE).symm, ?_,
    mergeSort_filter_key journeys, rfl⟩
  have h := List.sorted_mergeSort journeyLE_trans journeyLE_total journeys
  exact h.imp fun hab => by simpa [journeyLE, decide_eq_true_eq] using hab

/-- C4: for a non-empty list of known product names, the encoded
product filter, read back most-significant-bit-first after reversing
its characters, equals the sum of the distinct weights of the named
products (each distinct weight counted once, so IC and EC together
count one 2); its last character is 1, so it carries no zero padding;
and any list of names with the same underlying set — whatever the
order or multiplicity — encodes to the same string. -/
theorem product_filter_reversed_binary (ps : List String) (hne : ps ≠ [])
    (hall : ∀ p ∈ ps, (Rmvtransport.PRODUCTS p).isSome) :
    ∃ out : String,
      _product_filter ps = some out
      ∧ bitsToNat out.data.reverse = ((ps.filterMap Rmvtransport.PRODUCTS).dedup).sum
      ∧ out.data.getLast? = some '1'
      ∧ ∀ ps' : List String, ps'.toFinset = ps.toFinset →
          _product_filter ps' = some out := by
  have hw := productWeights_all_some ps hall
  have hfil : _product_filter ps
      = some (pyReverse (pyFormatB ((ps.filterMap Rmvtransport.PRODUCTS).dedup).sum)) := by
    unfold _product_filter
    rw [hw]
    rfl
  have npos : 0 < ((ps.filterMap Rmvtransport.PRODUCTS).dedup).sum := by
    obtain ⟨p, hp⟩ : ∃ p, p ∈ ps := by
      cases ps with
      | nil => exact absurd rfl hne
      | cons a l => exact ⟨a, List.mem_cons_self a l⟩
    obtain ⟨w, hw'⟩ := Option.isSome_iff_exists.mp (hall p hp)
    have hwmem : w ∈ ps.filterMap Rmvtransport.PRODUCTS :=
      List.mem_filterMap.mpr ⟨p, hp, hw'⟩
    have hwd : w ∈ (ps.filterMap Rmvtransport.PRODUCTS).dedup :=
      List.mem_dedup.mpr hwmem
    have hle : w ≤ ((ps.filterMap Rmvtransport.PRODUCTS).dedup).sum :=
      List.le_sum_of_mem hwd
    have hpos := products_weight_pos p w hw'
    omega
  have hdata : (pyReverse (pyFormatB ((ps.filterMap Rmvtransport.PRODUCTS).dedup).sum)).data
      = binDigitsRev ((ps.filterMap Rmvtransport.PRODUCTS).dedup).sum := by
    unfold pyReverse pyFormatB
    rw [if_neg (by omega)]
    show ((binDigitsRev _).reverse).reverse = _
    rw [List.reverse_reverse]
  refine ⟨_, hfil, ?_, ?_, ?_⟩
  · rw [hdata]
    unfold bitsToNat binDigitsRev
    rw [List.foldl_reverse]
    exact binAux_foldr _ _ le_rfl
  · rw [hdata]
    unfold binDigitsRev
    exact binAux_getLast _ _ npos le_rfl
  · intro ps' hps'
    have hall' : ∀ p ∈ ps', (Rmvtransport.PRODUCTS p).isSome := by
      intro p hp
      have hmem : p ∈ ps := by
        have h1 := List.mem_toFinset.mpr hp
        rw [hps'] at h1
        exact List.mem_toFinset.mp h1
      exact hall p hmem
    have hw2 := productWeights_all_some ps' hall'
    have hsum : ((ps'.filterMap Rmvtransport.PRODUCTS).dedup).sum
        = ((ps.filterMap Rmvtransport.PRODUCTS).dedup).sum :=
      dedup_sum_congr _ _ (filterMap_toFinset_congr _ _ _ hps')
    unfold _product_filter
    rw [hw2]
    simp [hsum]

/-- C4 witness: the pair IC, EC — which share weight 2 — encodes to a
string that reversed reads back as 2, ends in 1, and is shared by
every reordering or duplication of the pair. -/
theorem product_filter_reversed_binary_witness :
    (["IC", "EC"] : List String) ≠ []
    ∧ ∃ out : String,
        _product_filter ["IC", "EC"] = some out
        ∧ bitsToNat out.data.reverse
            = (((["IC", "EC"] : List String).filterMap Rmvtransport.PRODUCTS).dedup).sum
        ∧ out.data.getLast? = some '1'
        ∧ ∀ ps' : List String, ps'.toFinset = (["IC", "EC"] : List String).toFinset →
            _product_filter ps' = some out :=
  ⟨by decide, product_filter_reversed_binary ["IC", "EC"] (by decide) (by decide)⟩

/-- C1 (spec-modelled): for every parser behaviour and every response
buffer, the repair loop only ever fails with the data error (never any
other error); it makes at most `MAX_RETRIES` parse attempts; a
successful document comes from a clean parse of some (possibly
repaired) buffer; an offending line that is not in the known-issues
table fails immediately with the data error; and a known offending
line is the `<Arr getIn=false>` entry, whose substring is replaced by
`<Arr >` throughout the buffer before the parse is retried with one
attempt consumed. -/
theorem parse_response_spec {δ : Type} (parse : String → Except Nat δ) (buf : String) :
    (∀ e, (parse_response parse buf).1 = Except.error e → e = RaisedError.dataError)
    ∧ (parse_response parse buf).2 ≤ Const.MAX_RETRIES
    ∧ (∀ d, (parse_response parse buf).1 = Except.ok d → ∃ b, parse b = Except.ok d)
    ∧ (∀ lineno, parse buf = Except.error lineno →
        findIssue (reported_line buf lineno) = none →
        (parse_response parse buf).1 = Except.error RaisedError.dataError)
    ∧ (∀ lineno kv, parse buf = Except.error lineno →
        findIssue (reported_line buf lineno) = some kv →
        kv = ("<Arr getIn=false>", "<Arr >")
        ∧ (parse_response parse buf)
            = ((parse_with_retries parse (Const.MAX_RETRIES - 1)
                  (pyReplace buf "<Arr getIn=false>" "<Arr >")).1,
               (parse_with_retries parse (Const.MAX_RETRIES - 1)
                  (pyReplace buf "<Arr getIn=false>" "<Arr >")).2 + 1)) := by
  refine ⟨fun e h => pwr_error_eq parse Const.MAX_RETRIES buf e h,
    pwr_attempts_le parse Const.MAX_RETRIES buf,
    fun d h => pwr_ok_parsed parse Const.MAX_RETRIES buf d h, ?_, ?_⟩
  · intro lineno hp hf
    show (parse_with_retries parse Const.MAX_RETRIES buf).1 = _
    rw [show Const.MAX_RETRIES = 4 + 1 from rfl]
    simp [parse_with_retries, hp, hf]
  · intro lineno kv hp hf
    have hkv := findIssue_eq_known _ _ hf
    subst hkv
    refine ⟨rfl, ?_⟩
    show parse_with_retries parse Const.MAX_RETRIES buf = _
    rw [show Const.MAX_RETRIES = 4 + 1 from rfl]
    simp [parse_with_retries, hp, hf, Const.MAX_RETRIES]

/-- C1 witness: a parser that always reports a syntax error on line 1
of a buffer whose line is not in the known-issues table fails with the
data error, within the attempt budget. -/
theorem parse_response_spec_witness :
    (parse_response (fun _ => (Except.error 1 : Except Nat Unit)) "<bad xml>").1
      = Except.error RaisedError.dataError
    ∧ (parse_response (fun _ => (Except.error 1 : Except Nat Unit)) "<bad xml>").2
      ≤ Const.MAX_RETRIES :=
  ⟨(parse_response_spec (fun _ => Except.error 1) "<bad xml>").2.2.2.1 1 rfl (by decide),
   (parse_response_spec (fun _ => Except.error 1) "<bad xml>").2.1⟩
